import Mathlib

/-!
Verification development for the calmtable repository (Next.js frontend of a
restaurant site).  The definitions below are shallow embeddings of the
frontend source files named in each section; the theorems settle the frozen
claims about them.
-/

/-! ## Cart model — src/frontend/src/components/cart-provider.tsx

The cart lives in React state as an array of `CartItem` records; the provider
exposes `addItem`, `removeItem`, `updateQuantity`, `clearCart`, `checkout`,
and the derived `itemCount` and `totalAmount`.  JavaScript numbers are
modelled as `Int` for ids and quantities (every call site passes integers:
`item.quantity - 1` / `item.quantity + 1` in cart-drawer.tsx) and as `Rat`
for monetary values. -/

/-- The numeric value `Number(s)` of a price string, modelled as a rational.
Prices are decimal numerals serialized by the backend (optional sign, digits,
optional fractional part); strings outside that fragment, for which
JavaScript yields `NaN`, are mapped to `0`. -/
def priceValue (s : String) : Rat :=
  let t := s.trim
  if t = "" then 0
  else
    let (sign, body) : Rat × List Char :=
      match t.data with
      | '-' :: rest => (-1, rest)
      | '+' :: rest => (1, rest)
      | l => (1, l)
    let digitsVal (l : List Char) : Rat :=
      (l.foldl (fun a c => a * 10 + (c.toNat - 48)) 0 : Nat)
    match body.span (fun c => c ≠ '.') with
    | (intPart, []) =>
        if intPart ≠ [] ∧ intPart.all Char.isDigit then sign * digitsVal intPart else 0
    | (intPart, _dot :: fracPart) =>
        if intPart ≠ [] ∧ fracPart ≠ [] ∧ intPart.all Char.isDigit ∧ fracPart.all Char.isDigit then
          sign * (digitsVal intPart + digitsVal fracPart / (10 : Rat) ^ fracPart.length)
        else 0

/-- A line in the cart (interface `CartItem` in cart-provider.tsx). -/
structure CartItem where
  menu_item_id : Int
  name : String
  price : String
  image_url : String
  quantity : Int
deriving DecidableEq, Repr

/-- The fields of a `MenuItem` (lib/types.ts) that the cart provider reads. -/
structure MenuItem where
  id : Int
  name : String
  price : String
  image_url : String
  is_available : Bool
deriving DecidableEq, Repr

/-- `addItem` from cart-provider.tsx: unavailable items are ignored; an item
already in the cart has its quantity incremented; otherwise a new entry with
quantity 1 is appended. -/
def addItem (current : List CartItem) (item : MenuItem) : List CartItem :=
  if !item.is_available then current
  else
    match current.find? (fun entry => entry.menu_item_id == item.id) with
    | some _ =>
        current.map (fun entry =>
          if entry.menu_item_id == item.id then
            { entry with quantity := entry.quantity + 1 }
          else entry)
    | none =>
        current ++ [{ menu_item_id := item.id, name := item.name, price := item.price,
                      image_url := item.image_url, quantity := 1 }]

/-- `removeItem` from cart-provider.tsx. -/
def removeItem (current : List CartItem) (menuItemId : Int) : List CartItem :=
  current.filter (fun item => item.menu_item_id != menuItemId)

/-- `updateQuantity` from cart-provider.tsx: a non-positive quantity removes
the entry, otherwise the matching entry gets the new quantity. -/
def updateQuantity (current : List CartItem) (menuItemId : Int) (quantity : Int) :
    List CartItem :=
  if quantity ≤ 0 then removeItem current menuItemId
  else current.map (fun item =>
    if item.menu_item_id == menuItemId then { item with quantity := quantity } else item)

/-- `clearCart` from cart-provider.tsx. -/
def clearCart (_current : List CartItem) : List CartItem := []

/-- `checkout` from cart-provider.tsx: `createOrder` is awaited and the cart
is cleared only when it succeeds (on rejection `clearCart` is never reached). -/
def checkout (current : List CartItem) (orderSucceeded : Bool) : List CartItem :=
  if orderSucceeded then clearCart current else current

/-- `itemCount`: `items.reduce((sum, item) => sum + item.quantity, 0)`. -/
def itemCount (items : List CartItem) : Int :=
  items.foldl (fun sum item => sum + item.quantity) 0

/-- `totalAmount`:
`items.reduce((sum, item) => sum + Number(item.price) * item.quantity, 0)`. -/
def totalAmount (items : List CartItem) : Rat :=
  items.foldl (fun sum item => sum + priceValue item.price * (item.quantity : Rat)) 0

lemma foldl_add_map {α M : Type _} [AddCommMonoid M] (g : α → M) :
    ∀ (l : List α) (init : M),
      l.foldl (fun s x => s + g x) init = init + (l.map g).sum := by
  intro l
  induction l with
  | nil => intro init; simp
  | cons a l ih =>
      intro init
      simp only [List.foldl_cons, List.map_cons, List.sum_cons]
      rw [ih, add_assoc]

/-- C2: cart total equals the sum of line items — for every cart state,
`totalAmount` equals the sum over all cart items of `Number(item.price)`
times `item.quantity`, and `itemCount` equals the sum of the quantities. -/
theorem cart_totals_are_sums (items : List CartItem) :
    totalAmount items
      = (items.map (fun item => priceValue item.price * (item.quantity : Rat))).sum
    ∧ itemCount items = (items.map (fun item => item.quantity)).sum := by
  constructor
  · simpa using foldl_add_map (fun item => priceValue item.price * (item.quantity : Rat)) items 0
  · simpa using foldl_add_map (fun item : CartItem => item.quantity) items 0

/-! ## Cart invariants — claims C8 and C9 -/

/-- The cart state invariant: no two entries share a `menu_item_id`, and
every entry has quantity at least 1. -/
def CartInv (items : List CartItem) : Prop :=
  items.Pairwise (fun a b => a.menu_item_id ≠ b.menu_item_id)
  ∧ ∀ item ∈ items, 1 ≤ item.quantity

lemma cartInv_map_preserving (items : List CartItem) (f : CartItem → CartItem)
    (hid : ∀ x, (f x).menu_item_id = x.menu_item_id)
    (hq : ∀ x ∈ items, 1 ≤ x.quantity → 1 ≤ (f x).quantity)
    (h : CartInv items) : CartInv (items.map f) := by
  obtain ⟨hpw, hqty⟩ := h
  constructor
  · rw [List.pairwise_map]
    exact hpw.imp_of_mem (fun ha hb hne => by rw [hid, hid]; exact hne)
  · intro y hy
    obtain ⟨x, hx, rfl⟩ := List.mem_map.mp hy
    exact hq x hx (hqty x hx)

lemma cartInv_filter (items : List CartItem) (p : CartItem → Bool)
    (h : CartInv items) : CartInv (items.filter p) := by
  obtain ⟨hpw, hqty⟩ := h
  exact ⟨hpw.sublist (List.filter_sublist items),
         fun x hx => hqty x (List.mem_of_mem_filter hx)⟩

lemma cartInv_addItem (current : List CartItem) (item : MenuItem)
    (h : CartInv current) : CartInv (addItem current item) := by
  by_cases hav : item.is_available
  · cases hfind : current.find? (fun entry => entry.menu_item_id == item.id) with
    | some e =>
        simp only [addItem, hav, Bool.not_true, Bool.false_eq_true, if_false, hfind]
        refine cartInv_map_preserving current _ (fun x => ?_) (fun x _ hx => ?_) h
        · by_cases hx : x.menu_item_id == item.id <;> simp [hx]
        · by_cases hxe : x.menu_item_id == item.id <;> simp [hxe] <;> omega
    | none =>
        simp only [addItem, hav, Bool.not_true, Bool.false_eq_true, if_false, hfind]
        obtain ⟨hpw, hqty⟩ := h
        constructor
        · rw [List.pairwise_append]
          refine ⟨hpw, List.pairwise_singleton _ _, fun a ha b hb => ?_⟩
          have := List.find?_eq_none.mp hfind a ha
          simp only [List.mem_singleton] at hb
          subst hb
          simpa using this
        · intro x hx
          rcases List.mem_append.mp hx with hx | hx
          · exact hqty x hx
          · simp only [List.mem_singleton] at hx; subst hx; simp
  · simp only [addItem, hav, Bool.not_false, if_true]
    exact h

lemma cartInv_updateQuantity (current : List CartItem) (menuItemId q : Int)
    (h : CartInv current) : CartInv (updateQuantity current menuItemId q) := by
  by_cases hq : q ≤ 0
  · simpa [updateQuantity, hq] using cartInv_filter current _ h
  · simp only [updateQuantity, hq, if_false]
    refine cartInv_map_preserving current _ (fun x => ?_) (fun x _ hx => ?_) h
    · by_cases hx : x.menu_item_id == menuItemId <;> simp [hx]
    · by_cases hxe : x.menu_item_id == menuItemId <;> simp [hxe] <;> omega

/-- C8: every cart operation preserves the invariant that no two entries
share a `menu_item_id` and every quantity is at least 1; `addItem` on an
item already in the cart increments that entry instead of appending a
duplicate; `addItem` on an unavailable menu item leaves the cart unchanged. -/
theorem cart_ops_preserve_cart_invariant :
    (∀ current item, CartInv current → CartInv (addItem current item))
  ∧ (∀ current menuItemId, CartInv current → CartInv (removeItem current menuItemId))
  ∧ (∀ current menuItemId q, CartInv current → CartInv (updateQuantity current menuItemId q))
  ∧ (∀ current, CartInv (clearCart current))
  ∧ (∀ current ok, CartInv current → CartInv (checkout current ok))
  ∧ (∀ current item, item.is_available = true →
       (∃ e ∈ current, e.menu_item_id = item.id) →
       addItem current item = current.map (fun entry =>
         if entry.menu_item_id = item.id then { entry with quantity := entry.quantity + 1 }
         else entry))
  ∧ (∀ current item, item.is_available = false → addItem current item = current) := by
  refine ⟨cartInv_addItem, fun current menuItemId h => cartInv_filter current _ h,
          cartInv_updateQuantity, fun _ => ⟨List.Pairwise.nil, by simp [clearCart]⟩,
          fun current ok h => ?_, fun current item hav hex => ?_, fun current item hav => ?_⟩
  · cases ok
    · simpa [checkout] using h
    · have hck : checkout current true = [] := rfl
      rw [hck]
      exact ⟨List.Pairwise.nil, by simp⟩
  · have hsome : (current.find? (fun entry => entry.menu_item_id == item.id)).isSome := by
      rw [List.find?_isSome]
      obtain ⟨e, he, heq⟩ := hex
      exact ⟨e, he, by simpa using heq⟩
    obtain ⟨e, hfind⟩ := Option.isSome_iff_exists.mp hsome
    simp only [addItem, hav, Bool.not_true, Bool.false_eq_true, if_false, hfind]
    apply List.map_congr_left
    intro x _
    by_cases hx : x.menu_item_id = item.id <;> simp [hx]
  · simp [addItem, hav]

/-- Witness for C8 at concrete carts. -/
theorem cart_ops_preserve_cart_invariant_witness :
    CartInv (addItem [⟨1, "Tea", "2.50", "", 1⟩] ⟨2, "Pie", "3.00", "", true⟩)
  ∧ addItem [⟨1, "Tea", "2.50", "", 1⟩] ⟨1, "Tea", "2.50", "", true⟩
      = [⟨1, "Tea", "2.50", "", 2⟩]
  ∧ addItem [⟨1, "Tea", "2.50", "", 1⟩] ⟨3, "Ice", "1.00", "", false⟩
      = [⟨1, "Tea", "2.50", "", 1⟩] := by
  refine ⟨cart_ops_preserve_cart_invariant.1 _ _ ⟨by decide, by decide⟩, ?_, ?_⟩
  · rw [cart_ops_preserve_cart_invariant.2.2.2.2.2.1 _ _ rfl
      ⟨⟨1, "Tea", "2.50", "", 1⟩, by decide, rfl⟩]
    decide
  · exact cart_ops_preserve_cart_invariant.2.2.2.2.2.2 _ _ rfl

/-- C9: `updateQuantity` with a non-positive quantity equals `removeItem`;
with a positive quantity it keeps the length and rewrites exactly the entry
with the given `menu_item_id`, leaving every other entry unchanged. -/
theorem updateQuantity_remove_or_pointwise :
    (∀ current menuItemId q, q ≤ 0 →
        updateQuantity current menuItemId q = removeItem current menuItemId)
  ∧ (∀ (current : List CartItem) (menuItemId q : Int), 1 ≤ q →
        (updateQuantity current menuItemId q).length = current.length
      ∧ ∀ j : Nat,
          (updateQuantity current menuItemId q)[j]?
            = (current[j]?).map (fun item =>
                if item.menu_item_id = menuItemId
                then { item with quantity := q } else item)) := by
  constructor
  · intro current menuItemId q hq
    simp [updateQuantity, hq]
  · intro current menuItemId q hq
    have hq0 : ¬ q ≤ 0 := by omega
    have hupd : updateQuantity current menuItemId q
        = current.map (fun item =>
            if item.menu_item_id = menuItemId then { item with quantity := q } else item) := by
      simp only [updateQuantity, hq0, if_false]
      apply List.map_congr_left
      intro x _
      by_cases hx : x.menu_item_id = menuItemId <;> simp [hx]
    constructor
    · rw [hupd, List.length_map]
    · intro j
      rw [hupd, List.getElem?_map]

/-- Witness for C9 at a concrete cart. -/
theorem updateQuantity_remove_or_pointwise_witness :
    (updateQuantity [⟨1, "Tea", "2.50", "", 1⟩] 1 0
       = removeItem [⟨1, "Tea", "2.50", "", 1⟩] 1)
  ∧ ((updateQuantity [⟨1, "Tea", "2.50", "", 1⟩] 1 3).length
        = ([⟨1, "Tea", "2.50", "", 1⟩] : List CartItem).length
     ∧ ∀ j : Nat,
        (updateQuantity [⟨1, "Tea", "2.50", "", 1⟩] 1 3)[j]?
          = ((([⟨1, "Tea", "2.50", "", 1⟩] : List CartItem))[j]?).map (fun item =>
              if item.menu_item_id = 1 then { item with quantity := 3 } else item)) :=
  ⟨updateQuantity_remove_or_pointwise.1 _ 1 0 (by decide),
   updateQuantity_remove_or_pointwise.2 _ 1 3 (by decide)⟩

/-! ## Response cache — src/frontend/src/lib/services.ts

`requestCache` is a JavaScript `Map<string, CacheEntry<unknown>>`; it is
modelled as an insertion-ordered association list (with `Map.set` replacing
an existing key in place and `Map.delete` removing it).  `Date.now()` is
passed explicitly as `now`. -/

/-- `interface CacheEntry<T>` from services.ts. -/
structure CacheEntry (α : Type) where
  data : α
  expiresAt : Nat
deriving DecidableEq, Repr

/-- The `requestCache` map. -/
abbrev Cache (α : Type) : Type := List (String × CacheEntry α)

/-- `DEFAULT_CACHE_TTL_MS = 60_000` from services.ts. -/
def DEFAULT_CACHE_TTL_MS : Nat := 60000

/-- `SLOT_CACHE_TTL_MS = 20_000` from services.ts. -/
def SLOT_CACHE_TTL_MS : Nat := 20000

/-- `requestCache.get(key)` (first — and, with unique keys, only — entry). -/
def cacheLookup {α : Type} (c : Cache α) (key : String) : Option (CacheEntry α) :=
  (c.find? (fun p => p.1 == key)).map (fun p => p.2)

/-- `requestCache.set(key, e)`: replace an existing key in place, else append. -/
def mapSet {α : Type} (c : Cache α) (key : String) (e : CacheEntry α) : Cache α :=
  if c.any (fun p => p.1 == key) then
    c.map (fun p => if p.1 == key then (key, e) else p)
  else c ++ [(key, e)]

/-- The JavaScript `s.startsWith(p)` test, as prefix-of on character data. -/
def strStartsWith (s p : String) : Bool := p.data.isPrefixOf s.data

/-- `readCache` from services.ts: a missing key reads as `null`; an entry
past its expiry (`Date.now() > cached.expiresAt`) is deleted and reads as
`null`; otherwise the stored data is returned.  The pair carries the value
read and the cache after the call. -/
def readCache {α : Type} (now : Nat) (c : Cache α) (key : String) :
    Option α × Cache α :=
  match c.find? (fun p => p.1 == key) with
  | none => (none, c)
  | some pair =>
      if now > pair.2.expiresAt then (none, c.filter (fun p => !(p.1 == key)))
      else (some pair.2.data, c)

/-- `writeCache` from services.ts: stores `data` under `key` with expiry
`Date.now() + ttlMs` (callers omitting `ttlMs` get `DEFAULT_CACHE_TTL_MS`;
slot queries pass `SLOT_CACHE_TTL_MS`). -/
def writeCache {α : Type} (now : Nat) (c : Cache α) (key : String) (data : α)
    (ttlMs : Nat) : Cache α :=
  mapSet c key ⟨data, now + ttlMs⟩

/-- `clearCacheByPrefix` from services.ts: deletes every key starting with
the given prefix string. -/
def clearCacheByPrefix {α : Type} (c : Cache α) (pre : String) : Cache α :=
  c.filter (fun p => !(strStartsWith p.1 pre))

/-- The cache key `slots:${date}` used by `fetchAvailableSlots`. -/
def slotsCacheKey (date : String) : String := "slots:" ++ date

/-- The cache effect of `createReservation` in services.ts:
`clearCacheByPrefix(`slots:${payload.date}`)`. -/
def createReservationInvalidate {α : Type} (date : String) (c : Cache α) : Cache α :=
  clearCacheByPrefix c (slotsCacheKey date)

lemma find?_mapSet_self {α : Type} (key : String) (e : CacheEntry α) :
    ∀ c : Cache α, (mapSet c key e).find? (fun p => p.1 == key) = some (key, e) := by
  intro c
  unfold mapSet
  by_cases hany : c.any (fun p => p.1 == key) = true
  · rw [if_pos hany]
    induction c with
    | nil => simp at hany
    | cons hd tl ih =>
        by_cases hhd : hd.1 = key
        · rw [List.map_cons, if_pos (by simpa using hhd),
            List.find?_cons_of_pos _ (by simp)]
        · have hb : (hd.1 == key) = false := by simpa using hhd
          have htl : tl.any (fun p => p.1 == key) = true := by
            simpa [List.any_cons, hb] using hany
          rw [List.map_cons, if_neg (by simp [hb]),
            List.find?_cons_of_neg _ (by simp [hb])]
          exact ih htl
  · rw [if_neg hany, List.find?_append]
    have hnone : c.find? (fun p => p.1 == key) = none := by
      rw [List.find?_eq_none]
      intro x hx hcontra
      exact hany (List.any_eq_true.mpr ⟨x, hx, hcontra⟩)
    rw [hnone, List.find?_cons_of_pos _ (by simp)]
    rfl

lemma find?_mapSet_ne {α : Type} (key k : String) (e : CacheEntry α) (hne : k ≠ key) :
    ∀ c : Cache α,
      (mapSet c key e).find? (fun p => p.1 == k) = c.find? (fun p => p.1 == k) := by
  intro c
  unfold mapSet
  by_cases hany : c.any (fun p => p.1 == key) = true
  · rw [if_pos hany]
    clear hany
    induction c with
    | nil => simp
    | cons hd tl ih =>
        by_cases hhd : hd.1 = key
        · have hkk : ((key, e).1 == k) = false := by
            simp only [beq_eq_false_iff_ne, ne_eq]
            exact fun hc => hne hc.symm
          have hdk : (hd.1 == k) = false := by
            rw [hhd]
            simpa using hkk
          rw [List.map_cons, if_pos (by simpa using hhd),
            List.find?_cons_of_neg _ (by simp [hkk]), List.find?_cons_of_neg _ (by simp [hdk])]
          exact ih
        · have hb : (hd.1 == key) = false := by simpa using hhd
          rw [List.map_cons, if_neg (by simp [hb])]
          by_cases hk : hd.1 = k
          · rw [List.find?_cons_of_pos _ (by simpa using hk),
              List.find?_cons_of_pos _ (by simpa using hk)]
          · rw [List.find?_cons_of_neg _ (by simpa using hk),
              List.find?_cons_of_neg _ (by simpa using hk)]
            exact ih
  · rw [if_neg hany, List.find?_append]
    have hkk : ((key, e).1 == k) = false := by
      simp only [beq_eq_false_iff_ne, ne_eq]
      exact fun hc => hne hc.symm
    rw [List.find?_cons_of_neg _ (by simp [hkk])]
    simp

lemma cacheLookup_filter_key {α : Type} (q : String → Bool) (k : String) :
    ∀ c : Cache α,
      cacheLookup (c.filter (fun p => q p.1)) k
        = if q k = true then cacheLookup c k else none := by
  intro c
  induction c with
  | nil => by_cases hk : q k = true <;> simp [cacheLookup, hk]
  | cons hd tl ih =>
      by_cases hhd : hd.1 = k
      · by_cases hq : q hd.1 = true
        · rw [List.filter_cons_of_pos (by simpa using hq), if_pos (hhd ▸ hq)]
          unfold cacheLookup
          rw [List.find?_cons_of_pos _ (by simpa using hhd),
            List.find?_cons_of_pos _ (by simpa using hhd)]
        · rw [List.filter_cons_of_neg (by simpa using hq), ih,
            if_neg (hhd ▸ hq), if_neg (hhd ▸ hq)]
      · have hb : (hd.1 == k) = false := by simpa using hhd
        have hstep : cacheLookup (hd :: tl) k = cacheLookup tl k := by
          unfold cacheLookup
          rw [List.find?_cons_of_neg _ (by simp [hb])]
        by_cases hq : q hd.1 = true
        · rw [List.filter_cons_of_pos (by simpa using hq)]
          have hstep1 : cacheLookup (hd :: List.filter (fun p => q p.1) tl) k
              = cacheLookup (List.filter (fun p => q p.1) tl) k := by
            unfold cacheLookup
            rw [List.find?_cons_of_neg _ (by simp [hb])]
          rw [hstep1, hstep, ih]
        · rw [List.filter_cons_of_neg (by simpa using hq), ih, hstep]

lemma readCache_writeCache {α : Type} (c : Cache α) (key : String) (data : α)
    (ttlMs now₀ now₁ : Nat) :
    readCache now₁ (writeCache now₀ c key data ttlMs) key
      = if now₁ ≤ now₀ + ttlMs
        then (some data, writeCache now₀ c key data ttlMs)
        else (none, (writeCache now₀ c key data ttlMs).filter (fun p => !(p.1 == key))) := by
  have hfind := find?_mapSet_self key ⟨data, now₀ + ttlMs⟩ c
  simp only [readCache, writeCache, hfind]
  by_cases h : now₁ ≤ now₀ + ttlMs
  · rw [if_neg (show ¬ now₁ > now₀ + ttlMs by omega), if_pos h]
  · rw [if_pos (show now₁ > now₀ + ttlMs by omega), if_neg h]

lemma clearCacheByPrefix_lookup {α : Type} (c : Cache α) (pre k : String) :
    cacheLookup (clearCacheByPrefix c pre) k
      = if strStartsWith k pre = true then none else cacheLookup c k := by
  have h := cacheLookup_filter_key (fun s => !(strStartsWith s pre)) k c
  by_cases hs : strStartsWith k pre = true
  · rw [if_pos hs]
    simpa [clearCacheByPrefix, hs] using h
  · rw [if_neg hs]
    rw [Bool.not_eq_true] at hs
    simpa [clearCacheByPrefix, hs] using h

lemma strStartsWith_head_ne {k a b : String} (ca cb : Char) (ta tb : List Char)
    (hdataA : a.data = ca :: ta) (hdataB : b.data = cb :: tb) (hne : ca ≠ cb)
    (hk : strStartsWith k a = true) : strStartsWith k b = false := by
  rw [Bool.eq_false_iff]
  intro hs
  unfold strStartsWith at hk hs
  rw [List.isPrefixOf_iff_prefix] at hk hs
  obtain ⟨t1, h1⟩ := hk
  obtain ⟨t2, h2⟩ := hs
  rw [hdataA] at h1
  rw [hdataB] at h2
  have hcontra : ca :: (ta ++ t1) = cb :: (tb ++ t2) := by
    rw [← List.cons_append, ← List.cons_append, h1, h2]
  injection hcontra with hh ht
  exact hne hh

lemma strStartsWith_append_cancel (p a b : String) :
    strStartsWith (p ++ a) (p ++ b) = strStartsWith a b := by
  unfold strStartsWith
  rw [String.data_append, String.data_append]
  by_cases h : b.data <+: a.data
  · have h1 : (p.data ++ b.data) <+: (p.data ++ a.data) :=
      (List.prefix_append_right_inj p.data).mpr h
    rw [(List.isPrefixOf_iff_prefix).mpr h1, (List.isPrefixOf_iff_prefix).mpr h]
  · have h1 : ¬ (p.data ++ b.data) <+: (p.data ++ a.data) := fun hc =>
      h ((List.prefix_append_right_inj p.data).mp hc)
    rw [Bool.eq_false_iff.mpr (fun hc => h1 ((List.isPrefixOf_iff_prefix).mp hc)),
      Bool.eq_false_iff.mpr (fun hc => h ((List.isPrefixOf_iff_prefix).mp hc))]

/-- C5: the response cache is a TTL-keyed map — after `writeCache(key, data,
ttlMs)` at time `now₀`, `readCache(key)` at time `now₁` returns the stored
data if and only if `now₁` does not exceed the stored expiry `now₀ + ttlMs`;
past the expiry the read returns `null` and deletes the entry; a read within
a newer write TTL sees only the newer data; the TTL default is 60000 ms and
slot queries use 20000 ms. -/
theorem readCache_ttl_semantics :
    (∀ (α : Type) (c : Cache α) (key : String) (data : α) (ttlMs now₀ now₁ : Nat),
        (readCache now₁ (writeCache now₀ c key data ttlMs) key).1
          = if now₁ ≤ now₀ + ttlMs then some data else none)
  ∧ (∀ (α : Type) (c : Cache α) (key : String) (data : α) (ttlMs now₀ now₁ : Nat),
        now₀ + ttlMs < now₁ →
        cacheLookup ((readCache now₁ (writeCache now₀ c key data ttlMs) key).2) key = none)
  ∧ (∀ (α : Type) (c : Cache α) (key : String) (d₀ d₁ : α) (t₀ t₁ n₀ n₁ n₂ : Nat),
        n₂ ≤ n₁ + t₁ →
        (readCache n₂ (writeCache n₁ (writeCache n₀ c key d₀ t₀) key d₁ t₁) key).1
          = some d₁)
  ∧ DEFAULT_CACHE_TTL_MS = 60000 ∧ SLOT_CACHE_TTL_MS = 20000 := by
  refine ⟨?_, ?_, ?_, rfl, rfl⟩
  · intro α c key data ttlMs now₀ now₁
    rw [readCache_writeCache]
    by_cases h : now₁ ≤ now₀ + ttlMs
    · rw [if_pos h, if_pos h]
    · rw [if_neg h, if_neg h]
  · intro α c key data ttlMs now₀ now₁ h
    rw [readCache_writeCache, if_neg (by omega)]
    have h2 := cacheLookup_filter_key (fun s => !(s == key)) key
      (writeCache now₀ c key data ttlMs)
    simpa using h2
  · intro α c key d₀ d₁ t₀ t₁ n₀ n₁ n₂ h
    rw [readCache_writeCache, if_pos h]

/-- Witness for C5 at concrete times and caches. -/
theorem readCache_ttl_semantics_witness :
    cacheLookup ((readCache 70001 (writeCache 0 ([] : Cache Nat) "k" 5
        DEFAULT_CACHE_TTL_MS) "k").2) "k" = none
  ∧ (readCache 100 (writeCache 50 (writeCache 0 ([] : Cache Nat) "k" 5
        SLOT_CACHE_TTL_MS) "k" 7 SLOT_CACHE_TTL_MS) "k").1 = some 7 :=
  ⟨readCache_ttl_semantics.2.1 Nat [] "k" 5 DEFAULT_CACHE_TTL_MS 0 70001 (by decide),
   readCache_ttl_semantics.2.2.1 Nat [] "k" 5 7 SLOT_CACHE_TTL_MS SLOT_CACHE_TTL_MS
     0 50 100 (by decide)⟩

/-- C6: `clearCacheByPrefix` deletes exactly the keys starting with the given
prefix string and leaves every other entry unchanged; `createReservation` for
date `d` clears exactly the keys starting with `slots:` followed by `d`, so
menu keys, review keys, and slot keys of non-matching dates stay cached. -/
theorem clearCacheByPrefix_removes_exactly_matching :
    (∀ (α : Type) (c : Cache α) (pre k : String),
        cacheLookup (clearCacheByPrefix c pre) k
          = if strStartsWith k pre = true then none else cacheLookup c k)
  ∧ (∀ (α : Type) (c : Cache α) (date k : String),
        cacheLookup (createReservationInvalidate date c) k
          = if strStartsWith k (slotsCacheKey date) = true then none
            else cacheLookup c k)
  ∧ (∀ (α : Type) (c : Cache α) (date k : String), strStartsWith k "menu:" = true →
        cacheLookup (createReservationInvalidate date c) k = cacheLookup c k)
  ∧ (∀ (α : Type) (c : Cache α) (date k : String), strStartsWith k "reviews:" = true →
        cacheLookup (createReservationInvalidate date c) k = cacheLookup c k)
  ∧ (∀ (α : Type) (c : Cache α) (date d : String), strStartsWith d date = false →
        cacheLookup (createReservationInvalidate date c) (slotsCacheKey d)
          = cacheLookup c (slotsCacheKey d)) := by
  refine ⟨fun α c pre k => clearCacheByPrefix_lookup c pre k,
          fun α c date k => clearCacheByPrefix_lookup c (slotsCacheKey date) k,
          fun α c date k hk => ?_, fun α c date k hk => ?_, fun α c date d hd => ?_⟩
  · unfold createReservationInvalidate
    have hdataB : (slotsCacheKey date).data = 's' :: ("lots:" ++ date).data := by
      show ("slots:" ++ date).data = 's' :: ("lots:" ++ date).data
      rw [String.data_append, String.data_append]
      rfl
    have hfalse := strStartsWith_head_ne 'm' 's' "enu:".data ("lots:" ++ date).data
      rfl hdataB (by decide) hk
    rw [clearCacheByPrefix_lookup, hfalse]
    simp
  · unfold createReservationInvalidate
    have hdataB : (slotsCacheKey date).data = 's' :: ("lots:" ++ date).data := by
      show ("slots:" ++ date).data = 's' :: ("lots:" ++ date).data
      rw [String.data_append, String.data_append]
      rfl
    have hfalse := strStartsWith_head_ne 'r' 's' "eviews:".data ("lots:" ++ date).data
      rfl hdataB (by decide) hk
    rw [clearCacheByPrefix_lookup, hfalse]
    simp
  · unfold createReservationInvalidate
    have hfalse : strStartsWith (slotsCacheKey d) (slotsCacheKey date) = false := by
      unfold slotsCacheKey
      rw [strStartsWith_append_cancel "slots:" d date]
      exact hd
    rw [clearCacheByPrefix_lookup, hfalse]
    simp

/-- Witness for C6 with concrete keys and dates. -/
theorem clearCacheByPrefix_removes_exactly_matching_witness :
    cacheLookup (createReservationInvalidate "2024-01-02"
        ([("menu:all", ⟨1, 99⟩)] : Cache Nat)) "menu:all"
      = cacheLookup ([("menu:all", ⟨1, 99⟩)] : Cache Nat) "menu:all"
  ∧ cacheLookup (createReservationInvalidate "2024-01-02"
        ([("reviews:all", ⟨2, 99⟩)] : Cache Nat)) "reviews:all"
      = cacheLookup ([("reviews:all", ⟨2, 99⟩)] : Cache Nat) "reviews:all"
  ∧ cacheLookup (createReservationInvalidate "2024-01-02"
        ([(slotsCacheKey "2024-01-03", ⟨3, 99⟩)] : Cache Nat)) (slotsCacheKey "2024-01-03")
      = cacheLookup ([(slotsCacheKey "2024-01-03", ⟨3, 99⟩)] : Cache Nat)
          (slotsCacheKey "2024-01-03") :=
  ⟨clearCacheByPrefix_removes_exactly_matching.2.2.1 Nat _ "2024-01-02" "menu:all"
     (by decide),
   clearCacheByPrefix_removes_exactly_matching.2.2.2.1 Nat _ "2024-01-02" "reviews:all"
     (by decide),
   clearCacheByPrefix_removes_exactly_matching.2.2.2.2 Nat _ "2024-01-02" "2024-01-03"
     (by decide)⟩

/-! ## Axios error interceptor — src/frontend/src/lib/api.ts

The response interceptor of the `api` axios instance: on a 401 it refreshes
the access token and replays the original request once; otherwise it rejects
with a message selected from the response payload.  JSON numbers are
modelled as `Int` (no claim depends on fractional values). -/

/-- A parsed JSON value: the runtime shape of `response.data` fields and of
`JSON.parse` results. -/
inductive JsonValue where
  | null
  | bool (b : Bool)
  | num (n : Int)
  | str (s : String)
  | arr (elems : List JsonValue)
  | obj (fields : List (String × JsonValue))

/-- `interface ApiErrorPayload` from api.ts: optional `detail`, `message`
and `non_field_errors` fields plus arbitrary further fields (the index
signature `[key: string]: unknown`), kept in object order. -/
structure ApiErrorPayload where
  detail : Option String
  message : Option String
  non_field_errors : Option (List String)
  extraFields : List (String × JsonValue)

/-- `Object.values(payload)`: all enumerable values of the payload object.
The declared fields are listed before the extra fields; this order is
immaterial to the interceptor because the `find` below is only consulted
when `detail` and `message` are absent and `non_field_errors` is absent or
empty, in which case none of the declared values can match its predicate. -/
def payloadValues (p : ApiErrorPayload) : List JsonValue :=
  (p.detail.map JsonValue.str).toList
  ++ (p.message.map JsonValue.str).toList
  ++ (p.non_field_errors.map (fun l => JsonValue.arr (l.map JsonValue.str))).toList
  ++ p.extraFields.map (fun f => f.2)

/-- The predicate of the `find` over `Object.values(payload)` in api.ts:
`Array.isArray(value) && value.length > 0 && typeof value[0] === 'string'`. -/
def isStringHeadArray : JsonValue → Bool
  | .arr (.str _ :: _) => true
  | _ => false

/-- The fields of `InternalAxiosRequestConfig & { _retry?: boolean }` that
the interceptor reads or writes (`retryFlag` stands for `_retry`). -/
structure RequestConfig where
  url : String
  retryFlag : Bool
  authorization : Option String
deriving DecidableEq, Repr

/-- `error.response`: HTTP status and parsed JSON body (`none` when the body
is not a JSON object). -/
structure AxiosResponse where
  status : Nat
  data : Option ApiErrorPayload

/-- The `AxiosError` fields the interceptor reads: `config` (absent for
errors raised before a request existed), `response`, and the transport
`message`. -/
structure AxiosError where
  config : Option RequestConfig
  response : Option AxiosResponse
  message : String

/-- The message computation at the end of the rejection handler in api.ts:
`payload?.detail ?? payload?.message ?? payload?.non_field_errors?.[0] ??
(Array.isArray(firstFieldError) ? firstFieldError[0] : undefined) ??
error.message`. -/
def errorMessage (error : AxiosError) : String :=
  let payload := error.response.bind (fun r => r.data)
  let firstFieldError :=
    payload.bind (fun p => (payloadValues p).find? isStringHeadArray)
  let fromFieldError : Option String :=
    match firstFieldError with
    | some (.arr (.str s :: _)) => some s
    | _ => none
  ((((payload.bind (fun p => p.detail)).or
      (payload.bind (fun p => p.message))).or
      ((payload.bind (fun p => p.non_field_errors)).bind List.head?)).or
      fromFieldError).getD error.message

/-- The JavaScript `url.includes(pat)` substring test. -/
def containsSubstring (s pat : String) : Bool :=
  (List.range (s.data.length + 1)).any (fun i => pat.data.isPrefixOf (s.data.drop i))

/-- What the rejection handler of `api.interceptors.response.use` produces:
either `api.request(originalRequest)` with the mutated config, or
`Promise.reject(new Error(message))`; `sessionCleared` records whether
`clearAuthSession()` ran on the way. -/
inductive InterceptorResult where
  | retryRequest (cfg : RequestConfig)
  | rejectWith (message : String) (sessionCleared : Bool)
deriving DecidableEq, Repr

/-- The rejection handler of `api.interceptors.response.use` in api.ts.
`refreshOutcome` is the settled result of `await refreshAccessToken()`:
`some newAccess` on fulfilment, `none` when the refresh rejected. -/
def responseErrorInterceptor (error : AxiosError) (refreshOutcome : Option String) :
    InterceptorResult :=
  match error.config with
  | some originalRequest =>
      if error.response.map (fun r => r.status) = some 401
          ∧ originalRequest.retryFlag = false
          ∧ containsSubstring originalRequest.url "/auth/refresh/" = false then
        match refreshOutcome with
        | some newAccess =>
            .retryRequest { originalRequest with
              retryFlag := true,
              authorization := some ("Bearer " ++ newAccess) }
        | none => .rejectWith (errorMessage error) true
      else .rejectWith (errorMessage error) false
  | none => .rejectWith (errorMessage error) false

lemma interceptor_reject_of_retryFlag (error : AxiosError) (outcome : Option String)
    (cfg : RequestConfig) (hcfg : error.config = some cfg) (hflag : cfg.retryFlag = true) :
    responseErrorInterceptor error outcome = .rejectWith (errorMessage error) false := by
  simp only [responseErrorInterceptor, hcfg]
  rw [if_neg (fun hc => by rw [hflag] at hc; exact Bool.true_eq_false ▸ hc.2.1)]

lemma interceptor_reject_message (error : AxiosError) (outcome : Option String)
    (m : String) (cleared : Bool)
    (h : responseErrorInterceptor error outcome = .rejectWith m cleared) :
    m = errorMessage error := by
  cases hcfg : error.config with
  | none =>
      simp only [responseErrorInterceptor, hcfg] at h
      exact (InterceptorResult.rejectWith.injEq _ _ _ _ ▸ h).1.symm
  | some cfg =>
      simp only [responseErrorInterceptor, hcfg] at h
      by_cases hcond : error.response.map (fun r => r.status) = some 401
          ∧ cfg.retryFlag = false
          ∧ containsSubstring cfg.url "/auth/refresh/" = false
      · rw [if_pos hcond] at h
        cases outcome with
        | none => exact (InterceptorResult.rejectWith.injEq _ _ _ _ ▸ h).1.symm
        | some tok => exact absurd h (by simp)
      · rw [if_neg hcond] at h
        exact (InterceptorResult.rejectWith.injEq _ _ _ _ ▸ h).1.symm

/-- C4: a 401 response on a not-yet-retried, non-refresh request is retried
exactly once, with `_retry` set and the refreshed token in the
`Authorization` header; requests already marked `_retry` and requests whose
URL contains `/auth/refresh/` are never retried; if the refresh itself
fails, the session is cleared and the error is rejected instead. -/
theorem retry_on_401_at_most_once :
    (∀ (error : AxiosError) (cfg : RequestConfig) (tok : String),
        error.config = some cfg →
        error.response.map (fun r => r.status) = some 401 →
        cfg.retryFlag = false →
        containsSubstring cfg.url "/auth/refresh/" = false →
        responseErrorInterceptor error (some tok)
          = .retryRequest
              { cfg with retryFlag := true, authorization := some ("Bearer " ++ tok) })
  ∧ (∀ (error : AxiosError) (outcome : Option String) (cfg : RequestConfig),
        error.config = some cfg → cfg.retryFlag = true →
        responseErrorInterceptor error outcome
          = .rejectWith (errorMessage error) false)
  ∧ (∀ (error : AxiosError) (outcome : Option String) (cfg : RequestConfig),
        error.config = some cfg →
        containsSubstring cfg.url "/auth/refresh/" = true →
        responseErrorInterceptor error outcome
          = .rejectWith (errorMessage error) false)
  ∧ (∀ (error : AxiosError) (cfg : RequestConfig),
        error.config = some cfg →
        error.response.map (fun r => r.status) = some 401 →
        cfg.retryFlag = false →
        containsSubstring cfg.url "/auth/refresh/" = false →
        responseErrorInterceptor error none
          = .rejectWith (errorMessage error) true)
  ∧ (∀ (error : AxiosError) (outcome : Option String) (cfg2 : RequestConfig),
        responseErrorInterceptor error outcome = .retryRequest cfg2 →
        cfg2.retryFlag = true
        ∧ ∀ (error2 : AxiosError) (outcome2 : Option String),
            error2.config = some cfg2 →
            responseErrorInterceptor error2 outcome2
              = .rejectWith (errorMessage error2) false) := by
  refine ⟨?_, interceptor_reject_of_retryFlag, ?_, ?_, ?_⟩
  · intro error cfg tok hcfg h401 hflag hurl
    simp only [responseErrorInterceptor, hcfg]
    rw [if_pos ⟨h401, hflag, hurl⟩]
  · intro error outcome cfg hcfg hurl
    simp only [responseErrorInterceptor, hcfg]
    rw [if_neg (fun hc => by rw [hurl] at hc; exact Bool.true_eq_false ▸ hc.2.2)]
  · intro error cfg hcfg h401 hflag hurl
    simp only [responseErrorInterceptor, hcfg]
    rw [if_pos ⟨h401, hflag, hurl⟩]
  · intro error outcome cfg2 hres
    cases hcfg : error.config with
    | none =>
        simp only [responseErrorInterceptor, hcfg] at hres
        exact absurd hres (by simp)
    | some cfg =>
        simp only [responseErrorInterceptor, hcfg] at hres
        by_cases hcond : error.response.map (fun r => r.status) = some 401
            ∧ cfg.retryFlag = false
            ∧ containsSubstring cfg.url "/auth/refresh/" = false
        · rw [if_pos hcond] at hres
          cases outcome with
          | none => exact absurd hres (by simp)
          | some tok =>
              have hcfg2 : cfg2
                  = { cfg with retryFlag := true, authorization := some ("Bearer " ++ tok) } :=
                ((InterceptorResult.retryRequest.injEq _ _).mp hres).symm
              subst hcfg2
              exact ⟨rfl, fun error2 outcome2 hcfg2 =>
                interceptor_reject_of_retryFlag error2 outcome2 _ hcfg2 rfl⟩
        · rw [if_neg hcond] at hres
          exact absurd hres (by simp)

/-- Sample 401 error on a fresh request (used by the C4 witness). -/
def err401Fresh : AxiosError :=
  { config := some { url := "/menu/", retryFlag := false, authorization := none },
    response := some { status := 401, data := none },
    message := "Request failed with status code 401" }

/-- Sample 401 error on an already-retried request (C4 witness). -/
def err401Retried : AxiosError :=
  { config := some { url := "/menu/", retryFlag := true, authorization := none },
    response := some { status := 401, data := none },
    message := "Request failed with status code 401" }

/-- Sample 401 error on the refresh endpoint itself (C4 witness). -/
def err401Refresh : AxiosError :=
  { config := some { url := "/auth/refresh/", retryFlag := false, authorization := none },
    response := some { status := 401, data := none },
    message := "Request failed with status code 401" }

/-- Witness for C4 at concrete 401 errors. -/
theorem retry_on_401_at_most_once_witness :
    responseErrorInterceptor err401Fresh (some "tok2")
      = .retryRequest
          { url := "/menu/", retryFlag := true, authorization := some ("Bearer " ++ "tok2") }
  ∧ responseErrorInterceptor err401Retried (some "tok2")
      = .rejectWith (errorMessage err401Retried) false
  ∧ responseErrorInterceptor err401Refresh none
      = .rejectWith (errorMessage err401Refresh) false
  ∧ responseErrorInterceptor err401Fresh none
      = .rejectWith (errorMessage err401Fresh) true :=
  ⟨retry_on_401_at_most_once.1 err401Fresh
     { url := "/menu/", retryFlag := false, authorization := none } "tok2"
     rfl rfl rfl (by decide),
   retry_on_401_at_most_once.2.1 err401Retried (some "tok2")
     { url := "/menu/", retryFlag := true, authorization := none } rfl rfl,
   retry_on_401_at_most_once.2.2.1 err401Refresh none
     { url := "/auth/refresh/", retryFlag := false, authorization := none } rfl (by decide),
   retry_on_401_at_most_once.2.2.2.1 err401Fresh
     { url := "/menu/", retryFlag := false, authorization := none }
     rfl rfl rfl (by decide)⟩

/-- The field-fallback criterion literally as the claim sentence reads: the
value is a non-empty array of strings (every element a string). -/
def isNonEmptyStringArray : JsonValue → Bool
  | .arr l => !l.isEmpty && l.all (fun v => match v with | .str _ => true | _ => false)
  | _ => false

/-- The message priority exactly as the claim states it: `detail` if
present, else `message`, else the first element of `non_field_errors`, else
the first string of the first field whose value is a non-empty array of
strings, else the transport error message. -/
def errorMessageSpec (error : AxiosError) : String :=
  match error.response.bind (fun r => r.data) with
  | none => error.message
  | some p =>
      match p.detail with
      | some d => d
      | none =>
          match p.message with
          | some m => m
          | none =>
              match p.non_field_errors with
              | some (e :: _) => e
              | _ =>
                  match (payloadValues p).find? isNonEmptyStringArray with
                  | some (.arr (.str s :: _)) => s
                  | _ => error.message

/-- The claim amended only where the counterexample forces it: the field
fallback takes the first field whose value is a non-empty array whose first
element is a string (the code inspects only `value[0]`), and yields that
first element. -/
def errorMessageAmended (error : AxiosError) : String :=
  match error.response.bind (fun r => r.data) with
  | none => error.message
  | some p =>
      match p.detail with
      | some d => d
      | none =>
          match p.message with
          | some m => m
          | none =>
              match p.non_field_errors with
              | some (e :: _) => e
              | _ =>
                  match (payloadValues p).find? isStringHeadArray with
                  | some (.arr (.str s :: _)) => s
                  | _ => error.message

lemma errorMessage_leaf_eq (p : ApiErrorPayload) (msg : String) :
    (Option.or (none : Option String)
        (match (payloadValues p).find? isStringHeadArray with
         | some (.arr (.str s :: _)) => some s
         | _ => none)).getD msg
      = (match (payloadValues p).find? isStringHeadArray with
         | some (.arr (.str s :: _)) => s
         | _ => msg) := by
  cases hf : (payloadValues p).find? isStringHeadArray with
  | none => simp
  | some v =>
      have hp := List.find?_some hf
      cases v with
      | null => simp [isStringHeadArray] at hp
      | bool b => simp [isStringHeadArray] at hp
      | num n => simp [isStringHeadArray] at hp
      | str s => simp [isStringHeadArray] at hp
      | obj f => simp [isStringHeadArray] at hp
      | arr l =>
          cases l with
          | nil => simp [isStringHeadArray] at hp
          | cons v0 rest =>
              cases v0 with
              | null => simp [isStringHeadArray] at hp
              | bool b => simp [isStringHeadArray] at hp
              | num n => simp [isStringHeadArray] at hp
              | obj f => simp [isStringHeadArray] at hp
              | arr l2 => simp [isStringHeadArray] at hp
              | str s => simp

lemma errorMessage_eq_amended (error : AxiosError) :
    errorMessage error = errorMessageAmended error := by
  unfold errorMessage errorMessageAmended
  cases hresp : error.response with
  | none => simp
  | some r =>
      cases hdat : r.data with
      | none => simp [hdat]
      | some p =>
          simp only [hdat, Option.some_bind]
          cases hdet : p.detail with
          | some d => simp [hdet]
          | none =>
              cases hmsg : p.message with
              | some m => simp [hdet, hmsg]
              | none =>
                  cases hnfe : p.non_field_errors with
                  | some l =>
                      cases l with
                      | cons e rest => simp [hdet, hmsg, hnfe]
                      | nil =>
                          simp only [hdet, hmsg, hnfe, Option.or_none, Option.none_or,
                            List.head?_nil, Option.some_bind, Option.bind_none]
                          exact errorMessage_leaf_eq p error.message
                  | none =>
                      simp only [hdet, hmsg, hnfe, Option.or_none, Option.none_or,
                        Option.bind_none]
                      exact errorMessage_leaf_eq p error.message

/-- A 400 response whose first array-valued field has a string head but a
non-string second element — here the claim wording and the code part ways. -/
def mixedFieldError : AxiosError :=
  { config := none,
    response := some
      { status := 400,
        data := some
          { detail := none, message := none, non_field_errors := none,
            extraFields :=
              [("a", .arr [.str "x", .num 1]), ("b", .arr [.str "y"])] } },
    message := "Network Error" }

/-- C7 counterexample: on `mixedFieldError` the interceptor rejects with
"x" (the head of field `a`, an array whose first element is a string), while
the claim priority — first field whose value is a non-empty array of
strings — selects "y" from field `b`. -/
theorem error_message_priority_counterexample :
    ¬ (∀ (error : AxiosError) (outcome : Option String) (m : String) (cleared : Bool),
        responseErrorInterceptor error outcome = .rejectWith m cleared →
        m = errorMessageSpec error) := by
  intro hclaim
  have h := hclaim mixedFieldError none "x" false (by rfl)
  have h2 : errorMessageSpec mixedFieldError = "y" := by rfl
  rw [h2] at h
  exact absurd h (by decide)

/-- C7 (amended): for every failed request not resolved by the 401 retry the
rejected message is chosen by fixed priority — `detail` if present, else
`message`, else the first element of `non_field_errors`, else the first
element of the first field whose value is a non-empty array whose first
element is a string, else the transport error message. -/
theorem error_message_priority :
    ∀ (error : AxiosError) (outcome : Option String) (m : String) (cleared : Bool),
      responseErrorInterceptor error outcome = .rejectWith m cleared →
      m = errorMessageAmended error := by
  intro error outcome m cleared h
  rw [interceptor_reject_message error outcome m cleared h]
  exact errorMessage_eq_amended error

/-- A 403 response carrying a `detail` field (C7 witness). -/
def detailError : AxiosError :=
  { config := none,
    response := some
      { status := 403,
        data := some
          { detail := some "Denied", message := none, non_field_errors := none,
            extraFields := [] } },
    message := "Request failed with status code 403" }

/-- Witness for C7 on a concrete rejected request. -/
theorem error_message_priority_witness :
    "Denied" = errorMessageAmended detailError :=
  error_message_priority detailError none "Denied" false (by rfl)

/-! ## Single-flight token refresh — src/frontend/src/lib/api.ts

`refreshAccessToken` shares one module-level `refreshPromise`; JavaScript is
single threaded, so each call of the function body up to the `refreshClient
.post(...)` (which both issues the HTTP request and installs the promise) is
atomic.  The model is a state machine whose events are calls of
`refreshAccessToken`, settlements of the in-flight refresh, and writes to
the stored refresh token (login/logout). -/

/-- The module state of api.ts plus the persisted session:
`refreshPromise` (identified by a serial number when present), the number of
unsettled requests to `/auth/refresh/`, and `localStorage.refresh_token`
(the empty string models an absent token, as `getRefreshToken` returns
`?? ''`). -/
structure RefreshState where
  refreshPromise : Option Nat
  inflightRequests : Nat
  storedRefreshToken : String
  nextPromiseId : Nat
deriving DecidableEq, Repr

/-- What one call of `refreshAccessToken()` returns. -/
inductive RefreshCall where
  | sharedPromise (id : Nat)
  | newRequest (id : Nat)
  | failed (message : String)
deriving DecidableEq, Repr

/-- `refreshAccessToken` from api.ts: return the shared promise when one is
in flight; fail fast when no refresh token is stored; otherwise post to
`/auth/refresh/` and install the chained promise. -/
def refreshAccessToken (s : RefreshState) : RefreshCall × RefreshState :=
  match s.refreshPromise with
  | some id => (.sharedPromise id, s)
  | none =>
      if s.storedRefreshToken = "" then
        (.failed "Session expired. Please sign in again.", s)
      else
        (.newRequest s.nextPromiseId,
         { s with refreshPromise := some s.nextPromiseId,
                  inflightRequests := s.inflightRequests + 1,
                  nextPromiseId := s.nextPromiseId + 1 })

/-- The in-flight refresh settles: the `.finally` resets `refreshPromise` to
`null`; on fulfilment with a stored user the `.then` rotates the stored
refresh token (`rotated = some tok`), on rejection (`none`) storage is left
to the caller. -/
def settleRefresh (s : RefreshState) (rotated : Option String) : RefreshState :=
  match s.refreshPromise with
  | some _ =>
      { s with refreshPromise := none,
               inflightRequests := s.inflightRequests - 1,
               storedRefreshToken := rotated.getD s.storedRefreshToken }
  | none => s

/-- Events touching the refresh machinery. -/
inductive RefreshEvent where
  | call
  | settle (rotated : Option String)
  | setStoredRefreshToken (tok : String)
deriving DecidableEq, Repr

def refreshStep (s : RefreshState) (e : RefreshEvent) : RefreshState :=
  match e with
  | .call => (refreshAccessToken s).2
  | .settle rotated => settleRefresh s rotated
  | .setStoredRefreshToken tok => { s with storedRefreshToken := tok }

/-- Page load: no promise, no request in flight, whatever token storage
holds. -/
def initialRefreshState (tok : String) : RefreshState :=
  { refreshPromise := none, inflightRequests := 0,
    storedRefreshToken := tok, nextPromiseId := 0 }

def refreshRun (tok : String) (events : List RefreshEvent) : RefreshState :=
  events.foldl refreshStep (initialRefreshState tok)

/-- The coupling invariant: a shared promise exists exactly while one
request is unsettled, and never more than one is. -/
def RefreshInv (s : RefreshState) : Prop :=
  s.inflightRequests ≤ 1 ∧ (s.refreshPromise.isSome ↔ s.inflightRequests = 1)

lemma refreshStep_call (s : RefreshState) :
    refreshStep s .call = (refreshAccessToken s).2 := rfl

lemma refreshStep_settle (s : RefreshState) (rotated : Option String) :
    refreshStep s (.settle rotated) = settleRefresh s rotated := rfl

lemma refreshStep_setToken (s : RefreshState) (tok : String) :
    refreshStep s (.setStoredRefreshToken tok) = { s with storedRefreshToken := tok } := rfl

lemma refreshInv_step (s : RefreshState) (e : RefreshEvent) (h : RefreshInv s) :
    RefreshInv (refreshStep s e) := by
  obtain ⟨hle, hiff⟩ := h
  cases e with
  | call =>
      rw [refreshStep_call]
      cases hp : s.refreshPromise with
      | some id =>
          have hr : (refreshAccessToken s).2 = s := by
            simp only [refreshAccessToken, hp]
          rw [hr]
          exact ⟨hle, hiff⟩
      | none =>
          by_cases htok : s.storedRefreshToken = ""
          · have hr : (refreshAccessToken s).2 = s := by
              simp only [refreshAccessToken, hp, htok, if_true]
            rw [hr]
            exact ⟨hle, hiff⟩
          · have h0 : s.inflightRequests = 0 := by
              rcases Nat.eq_zero_or_pos s.inflightRequests with h1 | h1
              · exact h1
              · exfalso
                have h2 := hiff.mpr (by omega)
                rw [hp] at h2
                simp at h2
            have hr : (refreshAccessToken s).2
                = { s with
                    refreshPromise := some s.nextPromiseId,
                    inflightRequests := s.inflightRequests + 1,
                    nextPromiseId := s.nextPromiseId + 1 } := by
              simp only [refreshAccessToken, hp, htok, if_false]
            rw [hr]
            exact ⟨by simp [h0], by simp [h0]⟩
  | settle rotated =>
      rw [refreshStep_settle]
      cases hp : s.refreshPromise with
      | none =>
          have hr : settleRefresh s rotated = s := by
            simp only [settleRefresh, hp]
          rw [hr]
          exact ⟨hle, hiff⟩
      | some id =>
          have h1 : s.inflightRequests = 1 := hiff.mp (by rw [hp]; rfl)
          have hr : settleRefresh s rotated
              = { s with
                  refreshPromise := none,
                  inflightRequests := s.inflightRequests - 1,
                  storedRefreshToken := rotated.getD s.storedRefreshToken } := by
            simp only [settleRefresh, hp]
          rw [hr]
          refine ⟨?_, by simp [h1]⟩
          show s.inflightRequests - 1 ≤ 1
          omega
  | setStoredRefreshToken tok =>
      rw [refreshStep_setToken]
      exact ⟨hle, hiff⟩

lemma refreshInv_foldl (events : List RefreshEvent) :
    ∀ s : RefreshState, RefreshInv s → RefreshInv (events.foldl refreshStep s) := by
  induction events with
  | nil => intro s h; exact h
  | cons e rest ih => intro s h; exact ih _ (refreshInv_step s e h)

lemma refreshInv_run (tok : String) (events : List RefreshEvent) :
    RefreshInv (refreshRun tok events) := by
  refine refreshInv_foldl events _ ⟨Nat.zero_le 1, ?_⟩
  simp [initialRefreshState]

/-- C3: the refresh is single flight — at most one `/auth/refresh/` request
is ever in flight; calling `refreshAccessToken` while a promise is pending
returns that same promise and issues no request; the shared promise is reset
to `null` on settlement; with no stored refresh token the call fails
immediately with the session-expired error and no request. -/
theorem refresh_single_flight :
    (∀ (tok : String) (events : List RefreshEvent),
        (refreshRun tok events).inflightRequests ≤ 1)
  ∧ (∀ (s : RefreshState) (id : Nat), s.refreshPromise = some id →
        refreshAccessToken s = (.sharedPromise id, s))
  ∧ (∀ (s : RefreshState) (rotated : Option String),
        (settleRefresh s rotated).refreshPromise = none)
  ∧ (∀ s : RefreshState, s.refreshPromise = none → s.storedRefreshToken = "" →
        refreshAccessToken s = (.failed "Session expired. Please sign in again.", s)) := by
  refine ⟨fun tok events => (refreshInv_run tok events).1, ?_, ?_, ?_⟩
  · intro s id hp
    unfold refreshAccessToken
    rw [hp]
  · intro s rotated
    unfold settleRefresh
    cases hp : s.refreshPromise with
    | none => exact hp
    | some id => rfl
  · intro s hp htok
    unfold refreshAccessToken
    rw [hp]
    simp [htok]

/-- Witness for C3 on a concrete state and trace. -/
theorem refresh_single_flight_witness :
    refreshAccessToken
        { refreshPromise := some 0, inflightRequests := 1,
          storedRefreshToken := "r1", nextPromiseId := 1 }
      = (.sharedPromise 0,
         { refreshPromise := some 0, inflightRequests := 1,
           storedRefreshToken := "r1", nextPromiseId := 1 })
  ∧ refreshAccessToken
        { refreshPromise := none, inflightRequests := 0,
          storedRefreshToken := "", nextPromiseId := 0 }
      = (.failed "Session expired. Please sign in again.",
         { refreshPromise := none, inflightRequests := 0,
           storedRefreshToken := "", nextPromiseId := 0 }) :=
  ⟨refresh_single_flight.2.1 _ 0 rfl,
   refresh_single_flight.2.2.2 _ rfl rfl⟩

/-! ## Stored auth profile — src/frontend/src/lib/auth.ts and lib/image.ts

`getStoredUser` re-hydrates the persisted `auth_user` JSON blob.  The raw
localStorage cell is modelled as `StoredAuthUserValue`: absent, a string
`JSON.parse` throws on, or the parsed `JsonValue`. -/

/-- JavaScript truthiness of a JSON value. -/
def jsTruthy : JsonValue → Bool
  | .null => false
  | .bool b => b
  | .num n => n != 0
  | .str s => s != ""
  | .arr _ => true
  | .obj _ => true

/-- Truthiness of an optional property (`undefined` is falsy). -/
def jsTruthyOpt : Option JsonValue → Bool
  | none => false
  | some v => jsTruthy v

mutual
/-- The JavaScript `String(v)` coercion of a JSON value. -/
def jsStringOf : JsonValue → String
  | .null => "null"
  | .bool b => if b then "true" else "false"
  | .num n => toString n
  | .str s => s
  | .arr l => String.intercalate "," (jsStringElems l)
  | .obj _ => "[object Object]"

/-- Array elements under `Array.prototype.toString`, where `null` elements
print as the empty string. -/
def jsStringElems : List JsonValue → List String
  | [] => []
  | .null :: rest => "" :: jsStringElems rest
  | v :: rest => jsStringOf v :: jsStringElems rest
end

/-- A JavaScript number that may be NaN; finite values as rationals. -/
inductive JsNum where
  | nan
  | val (q : Rat)
deriving DecidableEq, Repr

/-- `Number(s)` for a string: blank strings are 0, plain decimal numerals
(optional sign, digits, optional fractional part) parse, anything else is
NaN.  (Hexadecimal, exponent and bare-dot forms are outside the fragment
the application stores.) -/
def jsNumberOfString (s : String) : JsNum :=
  let t := s.trim
  if t = "" then .val 0
  else
    let (sign, body) : Rat × List Char :=
      match t.data with
      | '-' :: rest => (-1, rest)
      | '+' :: rest => (1, rest)
      | l => (1, l)
    let digitsVal (l : List Char) : Rat :=
      (l.foldl (fun a c => a * 10 + (c.toNat - 48)) 0 : Nat)
    match body.span (fun c => c ≠ '.') with
    | (intPart, []) =>
        if intPart ≠ [] ∧ intPart.all Char.isDigit then .val (sign * digitsVal intPart)
        else .nan
    | (intPart, _dot :: fracPart) =>
        if intPart ≠ [] ∧ fracPart ≠ [] ∧ intPart.all Char.isDigit
            ∧ fracPart.all Char.isDigit then
          .val (sign * (digitsVal intPart + digitsVal fracPart / (10 : Rat) ^ fracPart.length))
        else .nan

/-- `Number(v)` of an optional JSON value: `Number(undefined)` is NaN,
`Number(null)` is 0, booleans are 0/1, arrays coerce through their string
form, plain objects are NaN. -/
def jsNumberOfJson : Option JsonValue → JsNum
  | none => .nan
  | some .null => .val 0
  | some (.bool b) => .val (if b then 1 else 0)
  | some (.num n) => .val n
  | some (.str s) => jsNumberOfString s
  | some (.arr l) => jsNumberOfString (jsStringOf (.arr l))
  | some (.obj _) => .nan

/-- The components of a parsed absolute URL that `normalizeImageSource`
reads. -/
structure ParsedUrl where
  hostname : String
  pathname : String
  search : String
  hash : String
deriving DecidableEq, Repr

/-- Splits a character list around the first occurrence of `pat`. -/
def breakOnInfix (pat : List Char) : List Char → Option (List Char × List Char)
  | [] => if pat.isEmpty then some ([], []) else none
  | c :: rest =>
      if pat.isPrefixOf (c :: rest) then some ([], (c :: rest).drop pat.length)
      else
        match breakOnInfix pat rest with
        | some (before, after) => some (c :: before, after)
        | none => none

/-- A model of `new URL(value)` covering ordinary absolute URLs
(`scheme://host[:port]/path[?query][#fragment]`); values it cannot parse
make the constructor throw (`none`).  The hostname is lowercased as the URL
parser does. -/
def parseUrl (value : String) : Option ParsedUrl :=
  match breakOnInfix "://".data value.data with
  | none => none
  | some (schemeChars, rest) =>
      if schemeChars.isEmpty then none
      else
        let hostPort := rest.takeWhile (fun c => c != '/' && c != '?' && c != '#')
        let tail := rest.drop hostPort.length
        let host := hostPort.takeWhile (fun c => c != ':')
        if host.isEmpty then none
        else
          let path := tail.takeWhile (fun c => c != '?' && c != '#')
          let tail2 := tail.drop path.length
          let query := tail2.takeWhile (fun c => c != '#')
          let frag := tail2.drop query.length
          some { hostname := String.toLower ⟨host⟩,
                 pathname := if path.isEmpty then "/" else ⟨path⟩,
                 search := ⟨query⟩,
                 hash := ⟨frag⟩ }

/-- `LOCAL_MEDIA_HOSTS` from lib/image.ts. -/
def LOCAL_MEDIA_HOSTS : List String := ["localhost", "127.0.0.1", "nginx", "backend"]

/-- `normalizeImageSource` from lib/image.ts: empty and blank sources map to
the empty string; rooted, `blob:` and `data:` sources pass through; an
absolute URL on a local media host with a `/media/` path is rewritten to
path + query + fragment; everything else (including unparseable values, for
which `new URL` throws) passes through unchanged. -/
def normalizeImageSource (src : String) : String :=
  if src = "" then ""
  else
    let value := src.trim
    if value = "" then ""
    else if strStartsWith value "/" || strStartsWith value "blob:"
        || strStartsWith value "data:" then value
    else
      match parseUrl value with
      | some parsed =>
          if LOCAL_MEDIA_HOSTS.contains parsed.hostname.toLower
              && strStartsWith parsed.pathname "/media/" then
            parsed.pathname ++ parsed.search ++ parsed.hash
          else value
      | none => value

/-- The object `getStoredUser` rebuilds.  `id` is a JavaScript number
(`Number(parsed.id)` may be NaN); `role` is whatever
`parsed.role ?? (parsed.is_staff ? 'admin' : 'customer')` evaluates to. -/
structure AuthUser where
  id : JsNum
  username : String
  email : String
  first_name : String
  last_name : String
  phone : String
  profile_image_url : String
  is_staff : Bool
  role : JsonValue

/-- Property access `parsed[key]` on a parsed JSON object. -/
def getField (fields : List (String × JsonValue)) (key : String) : Option JsonValue :=
  (fields.find? (fun p => p.1 == key)).map (fun p => p.2)

/-- `String(parsed[key] ?? '')`: a missing or null property becomes the
empty string; any other value goes through the string coercion. -/
def jsStringField (fields : List (String × JsonValue)) (key : String) : String :=
  match getField fields key with
  | none => ""
  | some .null => ""
  | some v => jsStringOf v

/-- The `AuthUser` literal built at the end of `getStoredUser`. -/
def mkStoredUser (fields : List (String × JsonValue)) : AuthUser :=
  let role :=
    match getField fields "role" with
    | none =>
        if jsTruthyOpt (getField fields "is_staff") then JsonValue.str "admin"
        else JsonValue.str "customer"
    | some .null =>
        if jsTruthyOpt (getField fields "is_staff") then JsonValue.str "admin"
        else JsonValue.str "customer"
    | some v => v
  { id := jsNumberOfJson (getField fields "id"),
    username := jsStringField fields "username",
    email := jsStringField fields "email",
    first_name := jsStringField fields "first_name",
    last_name := jsStringField fields "last_name",
    phone := jsStringField fields "phone",
    profile_image_url := normalizeImageSource (jsStringField fields "profile_image_url"),
    is_staff := jsTruthyOpt (getField fields "is_staff"),
    role := role }

/-- The `auth_user` localStorage cell as `getStoredUser` sees it. -/
inductive StoredAuthUserValue where
  | absent
  | unparseable
  | parsed (v : JsonValue)

/-- `getStoredUser` from auth.ts.  `JSON.parse` yields null, a boolean, a
number, a string, an array, or an object; `!parsed` filters null (the only
falsy parse result a stored object can produce here), and
`typeof parsed !== 'object'` filters booleans, numbers and strings.  A
parsed array has `typeof` 'object' and proceeds with every accessed
property undefined. -/
def getStoredUser : StoredAuthUserValue → Option AuthUser
  | .absent => none
  | .unparseable => none
  | .parsed v =>
      match v with
      | .obj fields => some (mkStoredUser fields)
      | .arr _ => some (mkStoredUser [])
      | _ => none

/-- C10: `getStoredUser` is total and never throws — it returns `null` for
an absent cell, an unparseable cell, and any parsed value that is not a
JavaScript object (null, booleans, numbers, strings); otherwise it returns
a fully defaulted `AuthUser`: every missing string field becomes the empty
string, and a missing `role` defaults to `admin` when `is_staff` is truthy
and to `customer` otherwise. -/
theorem getStoredUser_total_and_defaulted :
    getStoredUser .absent = none
  ∧ getStoredUser .unparseable = none
  ∧ getStoredUser (.parsed .null) = none
  ∧ (∀ b, getStoredUser (.parsed (.bool b)) = none)
  ∧ (∀ n, getStoredUser (.parsed (.num n)) = none)
  ∧ (∀ s, getStoredUser (.parsed (.str s)) = none)
  ∧ (∀ l, getStoredUser (.parsed (.arr l)) = some (mkStoredUser []))
  ∧ (∀ v, (∃ u, getStoredUser (.parsed v) = some u) ∨ getStoredUser (.parsed v) = none)
  ∧ (∀ fields, getField fields "username" = none →
        (getStoredUser (.parsed (.obj fields))).map AuthUser.username = some "")
  ∧ (∀ fields, getField fields "email" = none →
        (getStoredUser (.parsed (.obj fields))).map AuthUser.email = some "")
  ∧ (∀ fields, getField fields "first_name" = none →
        (getStoredUser (.parsed (.obj fields))).map AuthUser.first_name = some "")
  ∧ (∀ fields, getField fields "last_name" = none →
        (getStoredUser (.parsed (.obj fields))).map AuthUser.last_name = some "")
  ∧ (∀ fields, getField fields "phone" = none →
        (getStoredUser (.parsed (.obj fields))).map AuthUser.phone = some "")
  ∧ (∀ fields, getField fields "profile_image_url" = none →
        (getStoredUser (.parsed (.obj fields))).map AuthUser.profile_image_url = some "")
  ∧ (∀ fields, getField fields "role" = none →
        jsTruthyOpt (getField fields "is_staff") = true →
        (getStoredUser (.parsed (.obj fields))).map AuthUser.role
          = some (JsonValue.str "admin"))
  ∧ (∀ fields, getField fields "role" = none →
        jsTruthyOpt (getField fields "is_staff") = false →
        (getStoredUser (.parsed (.obj fields))).map AuthUser.role
          = some (JsonValue.str "customer")) := by
  refine ⟨rfl, rfl, rfl, fun b => rfl, fun n => rfl, fun s => rfl, fun l => rfl,
    fun v => ?_, fun fields h => ?_, fun fields h => ?_, fun fields h => ?_,
    fun fields h => ?_, fun fields h => ?_, fun fields h => ?_,
    fun fields hrole hstaff => ?_, fun fields hrole hstaff => ?_⟩
  · cases v with
    | obj fields => exact Or.inl ⟨mkStoredUser fields, rfl⟩
    | arr l => exact Or.inl ⟨mkStoredUser [], rfl⟩
    | null => exact Or.inr rfl
    | bool b => exact Or.inr rfl
    | num n => exact Or.inr rfl
    | str s => exact Or.inr rfl
  · simp [getStoredUser, mkStoredUser, jsStringField, h]
  · simp [getStoredUser, mkStoredUser, jsStringField, h]
  · simp [getStoredUser, mkStoredUser, jsStringField, h]
  · simp [getStoredUser, mkStoredUser, jsStringField, h]
  · simp [getStoredUser, mkStoredUser, jsStringField, h]
  · simp [getStoredUser, mkStoredUser, jsStringField, h, normalizeImageSource]
  · simp [getStoredUser, mkStoredUser, hrole, hstaff]
  · simp [getStoredUser, mkStoredUser, hrole, hstaff]

/-- Witness for C10 on concrete stored payloads. -/
theorem getStoredUser_total_and_defaulted_witness :
    (getStoredUser (.parsed (.obj []))).map AuthUser.username = some ""
  ∧ (getStoredUser (.parsed (.obj [("is_staff", .bool true)]))).map AuthUser.role
      = some (JsonValue.str "admin")
  ∧ (getStoredUser (.parsed (.obj [("is_staff", .bool false)]))).map AuthUser.role
      = some (JsonValue.str "customer") :=
  ⟨getStoredUser_total_and_defaulted.2.2.2.2.2.2.2.2.1 [] rfl,
   getStoredUser_total_and_defaulted.2.2.2.2.2.2.2.2.2.2.2.2.2.2.1
     [("is_staff", .bool true)] rfl rfl,
   getStoredUser_total_and_defaulted.2.2.2.2.2.2.2.2.2.2.2.2.2.2.2
     [("is_staff", .bool false)] rfl rfl⟩

/-! ## Booking flow — src/unnamed/part_013 (BookPage) with services.ts

The multi-step reservation page keeps `currentStep`, `selectedTimeSlot`,
`availableSlots`, `fullSlots` and `slotLoading` in React state.  The
`loadSlots` effect (dependency array `[selectedDate, selectedTimeSlot]`)
fetches `/available-slots/` and, on settlement, stores both slot lists; it
then clears the selection — but the guard
`if (selectedTimeSlot && !response.available_slots.includes(selectedTimeSlot))`
reads the `selectedTimeSlot` the effect closure CAPTURED when the fetch
started, not the selection current at settlement.  The effect has no
cancellation, so fetches can settle out of order at any later step, and a
settlement whose captured selection differs from the current one never
clears it.  `pendingFetches` therefore records the captured selection of
every fetch started but not settled; a `slotsResolve` event names which
pending fetch settles.

The `selectionAvailable`/`selectionFull` fields of the state and of each
recorded submission are ghost bookkeeping (they exist in no program
variable and influence no transition): they remember the stored slot lists
at the moment the current time slot was selected, which is what the
provenance theorem speaks about. -/

/-- The `/available-slots/` response lists (lib/types.ts). -/
structure AvailableSlotsResponse where
  available_slots : List String
  full_slots : List String
deriving DecidableEq, Repr

/-- Modelled from the spec: the backend slot-availability computation (the
`/available-slots/` endpoint) is not under src/ — only its frontend callers
are.  Spec §4 describes it as "a bounded enumeration/comparison against a
fixed daily time-slot list and a per-slot capacity count": a slot whose
reservation count has reached the capacity is full, the rest are
available. -/
def slotsResponse (slots : List String) (capacity : Nat) (booked : String → Nat) :
    AvailableSlotsResponse :=
  { available_slots := slots.filter (fun s => decide (booked s < capacity)),
    full_slots := slots.filter (fun s => decide (¬ booked s < capacity)) }

/-- A call of `createReservation`, recorded with the slot lists the page
held at that moment and (ghost) the slot lists stored when the submitted
slot was selected. -/
structure ReservationSubmission where
  time_slot : String
  availableSlotsAt : List String
  fullSlotsAt : List String
  selectionAvailable : List String
  selectionFull : List String
deriving DecidableEq, Repr

/-- The BookPage state.  `pendingFetches` lists the `selectedTimeSlot`
captured by each started, unsettled `loadSlots` call, in start order. -/
structure BookState where
  currentStep : Nat
  selectedTimeSlot : String
  availableSlots : List String
  fullSlots : List String
  slotLoading : Bool
  pendingFetches : List String
  selectionAvailable : List String
  selectionFull : List String
  submitted : List ReservationSubmission
deriving DecidableEq, Repr

/-- User actions and fetch settlements on the booking page.
`slotsResolve fetchIdx booked` settles the `fetchIdx`-th pending fetch
(fetches settle in any order) with the response computed from `booked`.
`dateInPast` and `partySizeOk` carry the step-one validation outcomes,
`detailsValid` the zod validation of the guest form, `serverAccepted`
whether `createReservation` resolved. -/
inductive BookEvent where
  | changeDate
  | slotsResolve (fetchIdx : Nat) (booked : String → Nat)
  | stepOneNext (dateInPast : Bool) (partySizeOk : Bool)
  | selectSlot (slot : String)
  | stepTwoNext
  | backToDate
  | backToSlots
  | submitGuestDetails (detailsValid : Bool) (serverAccepted : Bool)

/-- `goToStep` from BookPage: clamps the target to steps 1..4. -/
def goToStep (s : BookState) (target : Nat) : BookState :=
  { s with currentStep := min 4 (max 1 target) }

def bookStep (slots : List String) (capacity : Nat) (s : BookState) (e : BookEvent) :
    BookState :=
  match e with
  | .changeDate =>
      -- the date input exists only on the step-1 card; a changed date
      -- re-fires the effect, whose closure captures the current selection
      if s.currentStep = 1 then
        { s with pendingFetches := s.pendingFetches ++ [s.selectedTimeSlot],
                 slotLoading := true }
      else s
  | .slotsResolve fetchIdx booked =>
      match s.pendingFetches[fetchIdx]? with
      | none => s
      | some captured =>
          let pending := s.pendingFetches.eraseIdx fetchIdx
          let response := slotsResponse slots capacity booked
          if captured ≠ "" ∧ captured ∉ response.available_slots then
            -- `setSelectedTimeSlot('')`; the effect dependencies change —
            -- and a fresh fetch starts — only if this changed the value
            if s.selectedTimeSlot ≠ "" then
              { s with availableSlots := response.available_slots,
                       fullSlots := response.full_slots,
                       selectedTimeSlot := "",
                       slotLoading := true,
                       pendingFetches := pending ++ [""] }
            else
              { s with availableSlots := response.available_slots,
                       fullSlots := response.full_slots,
                       selectedTimeSlot := "",
                       slotLoading := false,
                       pendingFetches := pending }
          else
            { s with availableSlots := response.available_slots,
                     fullSlots := response.full_slots,
                     slotLoading := false,
                     pendingFetches := pending }
  | .stepOneNext dateInPast partySizeOk =>
      if s.currentStep = 1 ∧ dateInPast = false ∧ partySizeOk = true then goToStep s 2
      else s
  | .selectSlot slot =>
      -- a slot button exists only on the step-2 card once loading finished,
      -- only for slots in the rendered list, and is disabled when full
      if s.currentStep = 2 ∧ s.slotLoading = false
          ∧ slot ∈ s.availableSlots
              ++ s.fullSlots.filter (fun t => !(s.availableSlots.contains t))
          ∧ slot ∉ s.fullSlots then
        if slot = s.selectedTimeSlot then s
        else
          { s with selectedTimeSlot := slot,
                   selectionAvailable := s.availableSlots,
                   selectionFull := s.fullSlots,
                   pendingFetches := s.pendingFetches ++ [slot],
                   slotLoading := true }
      else s
  | .stepTwoNext =>
      if s.currentStep = 2 ∧ s.selectedTimeSlot ≠ "" then goToStep s 3 else s
  | .backToDate => if s.currentStep = 2 then goToStep s 1 else s
  | .backToSlots => if s.currentStep = 3 then goToStep s 2 else s
  | .submitGuestDetails detailsValid serverAccepted =>
      -- the guest form exists only on the step-3 card; a failed zod parse
      -- aborts before createReservation, a rejected createReservation keeps
      -- the page on step 3
      if s.currentStep = 3 ∧ detailsValid = true then
        let s1 := { s with submitted := s.submitted ++
          [{ time_slot := s.selectedTimeSlot,
             availableSlotsAt := s.availableSlots,
             fullSlotsAt := s.fullSlots,
             selectionAvailable := s.selectionAvailable,
             selectionFull := s.selectionFull }] }
        if serverAccepted then goToStep s1 4 else s1
      else s

/-- Page state after mount: step 1, nothing selected, and the mount effect
has started the first slot fetch with captured selection `""`. -/
def initialBookState : BookState :=
  { currentStep := 1, selectedTimeSlot := "", availableSlots := [], fullSlots := [],
    slotLoading := true, pendingFetches := [""],
    selectionAvailable := [], selectionFull := [], submitted := [] }

def bookRun (slots : List String) (capacity : Nat) (events : List BookEvent) : BookState :=
  events.foldl (bookStep slots capacity) initialBookState

/-- The booking-page invariant: a non-empty selection was available and not
full in the slot lists stored at the moment it was selected, and every
recorded submission carried either the empty slot or a slot with that
provenance. -/
def SelectionProvenanceInv (s : BookState) : Prop :=
  (s.selectedTimeSlot = "" ∨
    (s.selectedTimeSlot ∈ s.selectionAvailable ∧ s.selectedTimeSlot ∉ s.selectionFull))
  ∧ ∀ sub ∈ s.submitted, sub.time_slot = "" ∨
      (sub.time_slot ∈ sub.selectionAvailable ∧ sub.time_slot ∉ sub.selectionFull)

lemma bookStep_inv (slots : List String) (capacity : Nat) (s : BookState) (e : BookEvent)
    (h : SelectionProvenanceInv s) : SelectionProvenanceInv (bookStep slots capacity s e) := by
  obtain ⟨hsel, hsub⟩ := h
  cases e with
  | changeDate =>
      simp only [bookStep]
      by_cases hc : s.currentStep = 1
      · rw [if_pos hc]
        exact ⟨hsel, hsub⟩
      · rw [if_neg hc]
        exact ⟨hsel, hsub⟩
  | slotsResolve fetchIdx booked =>
      cases hfind : s.pendingFetches[fetchIdx]? with
      | none =>
          simp only [bookStep, hfind]
          exact ⟨hsel, hsub⟩
      | some captured =>
          simp only [bookStep, hfind]
          by_cases hcl : captured ≠ ""
              ∧ captured ∉ (slotsResponse slots capacity booked).available_slots
          · rw [if_pos hcl]
            by_cases hne : s.selectedTimeSlot ≠ ""
            · rw [if_pos hne]
              exact ⟨Or.inl rfl, hsub⟩
            · rw [if_neg hne]
              exact ⟨Or.inl rfl, hsub⟩
          · rw [if_neg hcl]
            exact ⟨hsel, hsub⟩
  | stepOneNext dateInPast partySizeOk =>
      simp only [bookStep]
      by_cases hc : s.currentStep = 1 ∧ dateInPast = false ∧ partySizeOk = true
      · rw [if_pos hc]
        exact ⟨hsel, hsub⟩
      · rw [if_neg hc]
        exact ⟨hsel, hsub⟩
  | selectSlot slot =>
      simp only [bookStep]
      by_cases hc : s.currentStep = 2 ∧ s.slotLoading = false
          ∧ slot ∈ s.availableSlots
              ++ s.fullSlots.filter (fun t => !(s.availableSlots.contains t))
          ∧ slot ∉ s.fullSlots
      · rw [if_pos hc]
        by_cases heq : slot = s.selectedTimeSlot
        · rw [if_pos heq]
          exact ⟨hsel, hsub⟩
        · rw [if_neg heq]
          refine ⟨?_, hsub⟩
          obtain ⟨-, -, hmem, hnotfull⟩ := hc
          rcases List.mem_append.mp hmem with hin | hin
          · exact Or.inr ⟨hin, hnotfull⟩
          · exact absurd (List.mem_of_mem_filter hin) hnotfull
      · rw [if_neg hc]
        exact ⟨hsel, hsub⟩
  | stepTwoNext =>
      simp only [bookStep]
      by_cases hc : s.currentStep = 2 ∧ s.selectedTimeSlot ≠ ""
      · rw [if_pos hc]
        exact ⟨hsel, hsub⟩
      · rw [if_neg hc]
        exact ⟨hsel, hsub⟩
  | backToDate =>
      simp only [bookStep]
      by_cases hc : s.currentStep = 2
      · rw [if_pos hc]
        exact ⟨hsel, hsub⟩
      · rw [if_neg hc]
        exact ⟨hsel, hsub⟩
  | backToSlots =>
      simp only [bookStep]
      by_cases hc : s.currentStep = 3
      · rw [if_pos hc]
        exact ⟨hsel, hsub⟩
      · rw [if_neg hc]
        exact ⟨hsel, hsub⟩
  | submitGuestDetails detailsValid serverAccepted =>
      simp only [bookStep]
      by_cases hc : s.currentStep = 3 ∧ detailsValid = true
      · rw [if_pos hc]
        have hnew : ∀ sub ∈ s.submitted ++
            [{ time_slot := s.selectedTimeSlot,
               availableSlotsAt := s.availableSlots,
               fullSlotsAt := s.fullSlots,
               selectionAvailable := s.selectionAvailable,
               selectionFull := s.selectionFull : ReservationSubmission }],
            sub.time_slot = "" ∨
              (sub.time_slot ∈ sub.selectionAvailable
                ∧ sub.time_slot ∉ sub.selectionFull) := by
          intro sub hmem
          rcases List.mem_append.mp hmem with hin | hin
          · exact hsub sub hin
          · rw [List.mem_singleton] at hin
            subst hin
            exact hsel
        by_cases hok : serverAccepted = true
        · rw [if_pos hok]
          exact ⟨hsel, hnew⟩
        · rw [if_neg hok]
          exact ⟨hsel, hnew⟩
      · rw [if_neg hc]
        exact ⟨hsel, hsub⟩

lemma bookInv_foldl (slots : List String) (capacity : Nat) (events : List BookEvent) :
    ∀ s : BookState, SelectionProvenanceInv s →
      SelectionProvenanceInv (events.foldl (bookStep slots capacity) s) := by
  induction events with
  | nil => intro s h; exact h
  | cons e rest ih => intro s h; exact ih _ (bookStep_inv slots capacity s e h)

lemma bookInv_run (slots : List String) (capacity : Nat) (events : List BookEvent) :
    SelectionProvenanceInv (bookRun slots capacity events) := by
  refine bookInv_foldl slots capacity events _ ⟨Or.inl rfl, ?_⟩
  intro sub hmem
  exact absurd hmem (List.not_mem_nil sub)

/-- C1 (amended): every submitted time slot is either the empty string or a
slot that was listed in `available_slots` and not in `full_slots` at the
moment it was selected (slot buttons are enabled only for such slots); a
settling fetch clears the selection exactly when the selection it captured
at start is non-empty and missing from its response's `available_slots`,
and otherwise leaves the selection unchanged — so a stale settlement does
not clear a later selection, and the submitted slot need not lie in the
most recently stored lists; step two can never be passed without a selected
slot. -/
theorem booking_selection_provenance :
    (∀ (slots : List String) (capacity : Nat) (events : List BookEvent),
        ∀ sub ∈ (bookRun slots capacity events).submitted,
          sub.time_slot = "" ∨
            (sub.time_slot ∈ sub.selectionAvailable
              ∧ sub.time_slot ∉ sub.selectionFull))
  ∧ (∀ (slots : List String) (capacity : Nat) (booked : String → Nat)
        (s : BookState) (fetchIdx : Nat) (captured : String),
        s.pendingFetches[fetchIdx]? = some captured →
        captured ≠ "" →
        captured ∉ (slotsResponse slots capacity booked).available_slots →
        (bookStep slots capacity s (.slotsResolve fetchIdx booked)).selectedTimeSlot = "")
  ∧ (∀ (slots : List String) (capacity : Nat) (booked : String → Nat)
        (s : BookState) (fetchIdx : Nat) (captured : String),
        s.pendingFetches[fetchIdx]? = some captured →
        ¬ (captured ≠ ""
            ∧ captured ∉ (slotsResponse slots capacity booked).available_slots) →
        (bookStep slots capacity s (.slotsResolve fetchIdx booked)).selectedTimeSlot
          = s.selectedTimeSlot)
  ∧ (∀ (slots : List String) (capacity : Nat) (s : BookState),
        s.selectedTimeSlot = "" →
        bookStep slots capacity s .stepTwoNext = s) := by
  refine ⟨fun slots capacity events => (bookInv_run slots capacity events).2,
          ?_, ?_, ?_⟩
  · intro slots capacity booked s fetchIdx captured hfind hcap hno
    simp only [bookStep, hfind]
    rw [if_pos ⟨hcap, hno⟩]
    by_cases hne : s.selectedTimeSlot ≠ ""
    · rw [if_pos hne]
    · rw [if_neg hne]
  · intro slots capacity booked s fetchIdx captured hfind hcl
    simp only [bookStep, hfind]
    rw [if_neg hcl]
  · intro slots capacity s hsel0
    simp only [bookStep]
    rw [if_neg (fun hc => hc.2 hsel0)]

/-- Every slot is fully booked in this settlement. -/
def bookedOut : String → Nat := fun _ => 1

/-- No slot has reservations in this settlement. -/
def bookedNone : String → Nat := fun _ => 0

/-- A trace on which the page submits the empty time slot: the user picks a
free slot (re-firing the slot effect with captured selection "18:00"),
passes step two before that fetch settles, the fetch settles with the slot
now full — its captured selection matches, so the selection is cleared at
step three — and the guest form submits `time_slot: ''`. -/
def clearedSelectionTrace : List BookEvent :=
  [.slotsResolve 0 bookedNone, .stepOneNext false true, .selectSlot "18:00",
   .stepTwoNext, .slotsResolve 0 bookedOut, .submitGuestDetails true true]

/-- A trace on which the page submits a slot listed in the stored
`full_slots`: the mount fetch and a date-change fetch both capture the
empty selection; the first settles with the slot free and the user selects
it; the date-change fetch then settles with the slot full, but its captured
selection is "" so it does NOT clear the current selection — leaving
{selection "18:00", available [], full ["18:00"]} — and the user passes
step two and submits. -/
def staleSettlementTrace : List BookEvent :=
  [.changeDate, .slotsResolve 0 bookedNone, .stepOneNext false true,
   .selectSlot "18:00", .slotsResolve 0 bookedOut, .stepTwoNext,
   .submitGuestDetails true true]

/-- C1 counterexample: on `staleSettlementTrace` a reservation is submitted
whose time slot is in the stored `full_slots` and not in the most recently
stored `available_slots`, and on `clearedSelectionTrace` one is submitted
whose (empty) time slot is not in the stored `available_slots` — refuting
both that submissions only carry slots from the most recently fetched
`available_slots` and that `full_slots` entries are never submitted. -/
theorem booking_submits_full_or_empty_slot_counterexample :
    (∃ sub ∈ (bookRun ["18:00"] 1 staleSettlementTrace).submitted,
        sub.time_slot ∈ sub.fullSlotsAt ∧ sub.time_slot ∉ sub.availableSlotsAt)
  ∧ ¬ (∀ sub ∈ (bookRun ["18:00"] 1 clearedSelectionTrace).submitted,
        sub.time_slot ∈ sub.availableSlotsAt) := by
  decide

/-- Witness for C1 at the concrete traces and at concrete states. -/
theorem booking_selection_provenance_witness :
    (({ time_slot := "18:00", availableSlotsAt := [], fullSlotsAt := ["18:00"],
        selectionAvailable := ["18:00"],
        selectionFull := [] } : ReservationSubmission).time_slot = "" ∨
      (({ time_slot := "18:00", availableSlotsAt := [], fullSlotsAt := ["18:00"],
          selectionAvailable := ["18:00"],
          selectionFull := [] } : ReservationSubmission).time_slot
          ∈ ({ time_slot := "18:00", availableSlotsAt := [], fullSlotsAt := ["18:00"],
               selectionAvailable := ["18:00"],
               selectionFull := [] } : ReservationSubmission).selectionAvailable
        ∧ ({ time_slot := "18:00", availableSlotsAt := [], fullSlotsAt := ["18:00"],
             selectionAvailable := ["18:00"],
             selectionFull := [] } : ReservationSubmission).time_slot
          ∉ ({ time_slot := "18:00", availableSlotsAt := [], fullSlotsAt := ["18:00"],
               selectionAvailable := ["18:00"],
               selectionFull := [] } : ReservationSubmission).selectionFull))
  ∧ (bookStep ["18:00"] 1
        { currentStep := 3, selectedTimeSlot := "18:00", availableSlots := ["18:00"],
          fullSlots := [], slotLoading := true, pendingFetches := ["18:00"],
          selectionAvailable := ["18:00"], selectionFull := [], submitted := [] }
        (.slotsResolve 0 bookedOut)).selectedTimeSlot = ""
  ∧ (bookStep ["18:00"] 1
        { currentStep := 3, selectedTimeSlot := "18:00", availableSlots := ["18:00"],
          fullSlots := [], slotLoading := true, pendingFetches := [""],
          selectionAvailable := ["18:00"], selectionFull := [], submitted := [] }
        (.slotsResolve 0 bookedOut)).selectedTimeSlot = "18:00"
  ∧ bookStep ["18:00"] 1 initialBookState .stepTwoNext = initialBookState :=
  ⟨booking_selection_provenance.1 ["18:00"] 1 staleSettlementTrace
     { time_slot := "18:00", availableSlotsAt := [], fullSlotsAt := ["18:00"],
       selectionAvailable := ["18:00"], selectionFull := [] } (by decide),
   booking_selection_provenance.2.1 ["18:00"] 1 bookedOut
     { currentStep := 3, selectedTimeSlot := "18:00", availableSlots := ["18:00"],
       fullSlots := [], slotLoading := true, pendingFetches := ["18:00"],
       selectionAvailable := ["18:00"], selectionFull := [], submitted := [] }
     0 "18:00" rfl (by decide) (by decide),
   booking_selection_provenance.2.2.1 ["18:00"] 1 bookedOut
     { currentStep := 3, selectedTimeSlot := "18:00", availableSlots := ["18:00"],
       fullSlots := [], slotLoading := true, pendingFetches := [""],
       selectionAvailable := ["18:00"], selectionFull := [], submitted := [] }
     0 "" rfl (by decide),
   booking_selection_provenance.2.2.2 ["18:00"] 1 initialBookState rfl⟩
